import Mathlib

/-!
Verification of the `rust-db-adapter` data-access layer.

The development shallowly embeds the crate's two components:

* **ConfigStore** (`src/guild.rs`): one configuration row per guild, with
  welcome/goodbye messages, the advertisement flag, the admin channel and
  three privilege role-sets (`priv_admin`, `priv_manager`, `priv_event`)
  stored as `i64` arrays.  The privilege mutation operations
  (`grant_privilege`, `deny_privilege`) and the queries
  (`has_privilege`, `get_privileges_for`) are modelled as pure
  state-transformers on the row; the database `UPDATE` issued by
  `update_privilege` is the assignment of the corresponding field.

* **Ledger** (`src/slap.rs`): an append-only table of slap reports keyed by
  the originating message id, with the `Enforcer` variant encoded as a
  nullable `i64` column.

Machine integers: Discord ids are `u64` on the API side and `i64` in
Postgres.  They are modelled as `Nat` and `Int`; the boundary conversions
`to_i64`/`from_i64` (from `src/lib.rs`) use `try_from(..).unwrap()` in the
source, whose panic is modelled by an `Option` result.  Fallible store
round-trips are modelled with `Except`/`Option`.
-/

set_option maxRecDepth 40000

namespace DbAdapter

/-! ## Identifier conversions (`src/lib.rs`) -/

/-- `to_i64` (`src/lib.rs:125`): `i64::try_from(id.into()).unwrap()`.
The `unwrap` panics for `id ≥ 2^63`; the panic is modelled by `none`. -/
def to_i64 (id : Nat) : Option Int :=
  if id < 2 ^ 63 then some (Int.ofNat id) else none

/-- `from_i64` (`src/lib.rs:121`): `u64::try_from(int).unwrap()`.
The `unwrap` panics for negative input; the panic is modelled by `none`. -/
def from_i64 (int : Int) : Option Nat :=
  if 0 ≤ int then some int.toNat else none

/-! ### Unescaped string interpolation (`src/lib.rs:114-119`)

`stringify_option` renders an optional text value as a raw SQL fragment —
`NULL`, or the value between single quotes with **no escaping** — which
`set_message` (`src/guild.rs:172`) and `insert_raw_slap`
(`src/slap.rs:115`) splice into the statement with `format!`.  The store
then re-tokenizes that fragment: a doubled quote inside a literal stands
for one quote character, and a fragment that does not scan as exactly one
literal leaves the statement malformed (or no longer the intended
single-value write), which surfaces as a query error.  The functions
below model that round trip through the statement text. -/

/-- The single-quote character (code 39) used by `stringify_option`. -/
def squote : Char := Char.ofNat 39

/-- `stringify_option` (`src/lib.rs:114`): the raw fragment interpolated
into the statement — `NULL` for `None`, the value between single quotes
(unescaped) for `Some`. -/
def stringify_option (option : Option String) : List Char :=
  match option with
  | some value => squote :: (value.data ++ [squote])
  | none => "NULL".data

/-- The store's scanner for the body of a single-quoted string literal:
characters up to an unpaired quote form the content, a doubled quote
stands for one quote character, and scanning fails on an unterminated
literal.  Returns the content and the characters remaining after the
closing quote. -/
def scan_literal : List Char → Option (List Char × List Char)
  | [] => none
  | [c] => if c = squote then some ([], []) else none
  | c :: c2 :: rest =>
    if c = squote then
      if c2 = squote then (scan_literal rest).map fun p => (squote :: p.1, p.2)
      else some ([], c2 :: rest)
    else (scan_literal (c2 :: rest)).map fun p => (c :: p.1, p.2)

/-- How the store reads the fragment back: `NULL` is the absent value; a
fragment opening with a quote must scan as one string literal spanning
the whole fragment; anything else (leftover characters after the closing
quote, an unterminated literal) fails the query, modelled by `none`. -/
def parse_fragment (fragment : List Char) : Option (Option String) :=
  match fragment with
  | c :: rest =>
    if c = squote then
      match scan_literal rest with
      | some (content, []) => some (some (String.mk content))
      | _ => none
    else if (c :: rest) = "NULL".data then some none
    else none
  | [] => none

/-- Net effect on the stored column of writing a value through
`stringify_option`: the value the store actually keeps, or `none` when
the resulting statement fails. -/
def stringify_option_effect (value : Option String) : Option (Option String) :=
  parse_fragment (stringify_option value)

/-! ## Guild configuration data model (`src/guild.rs`) -/

/-- `Privilege` (`src/guild.rs:455`). -/
inductive Privilege where
  | Manager
  | Admin
  | Event
deriving DecidableEq

/-- `MessageType` (`src/guild.rs:19`). -/
inductive MessageType where
  | Welcome
  | Goodbye
deriving DecidableEq

/-- `MessageType::as_ref` (`src/guild.rs:24`): the column name. -/
def MessageType.field : MessageType → String
  | .Welcome => "welcome_message"
  | .Goodbye => "goodbye_message"

/-- `GuildConfigError` (`src/guild.rs:35`).  `SqlxError` wraps any
store-level query failure opaquely (its payload is not modelled). -/
inductive GuildConfigError where
  | MessageTooLong (field : String)
  | SqlxError
  | RoleNoPrivilege (role : Int) (privilege : Privilege)
  | AlreadyExists (id : Nat)
deriving DecidableEq

/-- One row of the `guilds` table, as inserted by `GuildConfig::new`
(`src/guild.rs:98`): ids are stored as `i64` (`Int`), the three privilege
role-sets as `i64` arrays (`List Int`). -/
structure GuildRow where
  welcome_message : Option String
  goodbye_message : Option String
  advertise : Bool
  admin_chan : Option Int
  poll_chans : Option (List Int)
  priv_admin : List Int
  priv_manager : List Int
  priv_event : List Int
deriving DecidableEq

/-- `GuildConfig::get_raw_roles_with` (`src/guild.rs:275`): `SELECT {col}`
of the privilege's array column, the column picked by
`Privilege::as_ref` (`src/guild.rs:466`). -/
def get_raw_roles_with (row : GuildRow) : Privilege → List Int
  | .Admin => row.priv_admin
  | .Manager => row.priv_manager
  | .Event => row.priv_event

/-- `GuildConfig::update_privilege` (`src/guild.rs:304`): `UPDATE` of the
privilege's array column with `ids`. -/
def update_privilege (row : GuildRow) (ids : List Int) : Privilege → GuildRow
  | .Admin => { row with priv_admin := ids }
  | .Manager => { row with priv_manager := ids }
  | .Event => { row with priv_event := ids }

/-- `GuildConfig::grant_single_privilege` (`src/guild.rs:322`): fetch the
raw role array, `push` the role id, write it back. -/
def grant_single_privilege (row : GuildRow) (id : Int) (privilege : Privilege) : GuildRow :=
  update_privilege row (get_raw_roles_with row privilege ++ [id]) privilege

/-- `GuildConfig::grant_privilege` (`src/guild.rs:336`): granting `Admin`
first grants `Manager` (the invariant-preserving cascade), then the target
privilege itself. -/
def grant_privilege (row : GuildRow) (id : Int) : Privilege → GuildRow
  | .Admin => grant_single_privilege (grant_single_privilege row id .Manager) id .Admin
  | .Manager => grant_single_privilege row id .Manager
  | .Event => grant_single_privilege row id .Event

/-- `Iterator::position` as used in `deny_privilege` (`src/guild.rs:367`):
index of the first occurrence of `a`. -/
def position (a : Int) : List Int → Option Nat
  | [] => none
  | x :: xs => if x = a then some 0 else (position a xs).map (· + 1)

/-- `Vec::swap_remove` (`src/guild.rs:373`): the element at `i` is replaced
by the last element, which is then popped. -/
def swapRemove (l : List Int) (i : Nat) : List Int :=
  (l.set i (l.getLastD 0)).dropLast

/-- The body of `GuildConfig::deny_privilege` (`src/guild.rs:366-374`) for
one privilege set: locate the role (else fail with `RoleNoPrivilege`
before any write), `swap_remove` it and write the array back. -/
def deny_single_privilege (row : GuildRow) (id : Int) (privilege : Privilege) :
    GuildRow × Option GuildConfigError :=
  let roles := get_raw_roles_with row privilege
  match position id roles with
  | none => (row, some (.RoleNoPrivilege id privilege))
  | some index => (update_privilege row (swapRemove roles index) privilege, none)

/-- `GuildConfig::deny_privilege` (`src/guild.rs:355`): denying `Admin`
first recursively denies `Manager`, and the `?` operator propagates the
cascade's error (`src/guild.rs:363`), keeping whatever state the failing
step left behind.  The one-level recursion of the source
(`Admin → Manager`) is unrolled. -/
def deny_privilege (row : GuildRow) (id : Int) : Privilege → GuildRow × Option GuildConfigError
  | .Admin =>
    match deny_single_privilege row id .Manager with
    | (row1, some e) => (row1, some e)
    | (row1, none) => deny_single_privilege row1 id .Admin
  | .Manager => deny_single_privilege row id .Manager
  | .Event => deny_single_privilege row id .Event

/-- `GuildConfig::has_privilege` (`src/guild.rs:399`): membership in the
raw role array. -/
def has_privilege (row : GuildRow) (role : Int) (privilege : Privilege) : Bool :=
  (get_raw_roles_with row privilege).contains role

/-- `GuildConfig::get_privileges_for` (`src/guild.rs:430`): `Admin` implies
reporting `Manager` as well, otherwise `Manager` alone is probed; `Event`
is probed independently and pushed last. -/
def get_privileges_for (row : GuildRow) (role : Int) : List Privilege :=
  (if has_privilege row role .Admin then [Privilege.Admin, Privilege.Manager]
   else if has_privilege row role .Manager then [Privilege.Manager]
   else [])
  ++ (if has_privilege row role .Event then [Privilege.Event] else [])

/-! ## Messages (`src/guild.rs:126-207`) -/

/-- Effect of the `UPDATE guilds SET {column}=... ` issued by
`GuildConfig::set_message` (`src/guild.rs:172`). -/
def put_message (row : GuildRow) (msg_ty : MessageType) (msg : Option String) : GuildRow :=
  match msg_ty with
  | .Welcome => { row with welcome_message := msg }
  | .Goodbye => { row with goodbye_message := msg }

/-- `GuildConfig::set_message` (`src/guild.rs:159`): a `Some` message whose
`str::len()` (UTF-8 **byte** length) exceeds 2000 is rejected with
`MessageTooLong` before any query is issued; otherwise the message is
spliced into the `UPDATE` through `stringify_option` (`src/guild.rs:172`)
with no escaping, so the column receives whatever the store parses out of
the quoted fragment — a quote-free message verbatim, a message with
doubled quotes silently altered, and any other quote placement a failed
query (`SqlxError`). -/
def set_message (row : GuildRow) (msg_ty : MessageType) (msg : Option String) :
    Except GuildConfigError GuildRow :=
  match msg with
  | some string =>
    if string.utf8ByteSize > 2000 then
      Except.error (.MessageTooLong msg_ty.field)
    else
      match stringify_option_effect (some string) with
      | some stored => Except.ok (put_message row msg_ty stored)
      | none => Except.error .SqlxError
  | none => Except.ok (put_message row msg_ty none)

/-- `GuildConfig::get_message` (`src/guild.rs:126`): `SELECT` of the
message column. -/
def get_message (row : GuildRow) : MessageType → Option String
  | .Welcome => row.welcome_message
  | .Goodbye => row.goodbye_message

/-! ## Guild creation (`src/guild.rs:80-124`, `src/guild.rs:484-537`) -/

/-- `GuildConfigBuilder` (`src/guild.rs:484`); ids are kept in their `u64`
(`Nat`) API form, converted by `to_i64` at insertion time. -/
structure GuildConfigBuilder where
  id : Nat
  welcome_message : Option String
  goodbye_message : Option String
  advertise : Bool
  admin_chan : Option Nat
  poll_chans : Option (List Nat)
  priv_manager : List Nat
  priv_admin : List Nat
  priv_event : List Nat
deriving DecidableEq

/-- `GuildConfigBuilder::new` (`src/guild.rs:497`): the defaults — no
messages, `advertise = true`, no admin channel, no poll channels, all
privilege sets empty.  The builder exposes no setter for the channel and
privilege fields. -/
def GuildConfigBuilder.new (id : Nat) : GuildConfigBuilder :=
  ⟨id, none, none, true, none, none, [], [], []⟩

/-- The `guilds` table: one row per guild, keyed by the stored `i64` id. -/
abbrev GuildsTable := List (Int × GuildRow)

/-- `GuildConfig::exists` (`src/guild.rs:117`): fetch all ids and compare
each with `to_i64(self.0)` (whose panic is the outer `none`). -/
def GuildConfig.exists_ (table : GuildsTable) (id : Nat) : Option Bool :=
  (to_i64 id).map fun this_id => table.any fun record => record.1 = this_id

/-- `GuildConfig::new` (`src/guild.rs:86`): fail with `AlreadyExists` if a
row with the same id is present, otherwise convert the builder's fields
with `to_i64` (panics modelled by the outer `none`) and `INSERT` the row. -/
def GuildConfig.new (table : GuildsTable) (builder : GuildConfigBuilder) :
    Option (Except GuildConfigError GuildsTable) :=
  (to_i64 builder.id).bind fun key =>
  if table.any fun record => record.1 = key then
    some (Except.error (.AlreadyExists builder.id))
  else
    (match builder.poll_chans with
     | none => some none
     | some chans => (chans.mapM to_i64).map some).bind fun poll_chans =>
    (match builder.admin_chan with
     | none => some none
     | some chan => (to_i64 chan).map some).bind fun admin_chan =>
    (builder.priv_admin.mapM to_i64).bind fun priv_admin =>
    (builder.priv_manager.mapM to_i64).bind fun priv_manager =>
    (builder.priv_event.mapM to_i64).map fun priv_event =>
    Except.ok (table ++ [(key,
      (⟨builder.welcome_message, builder.goodbye_message, builder.advertise,
        admin_chan, poll_chans, priv_admin, priv_manager, priv_event⟩ : GuildRow))])

/-! ## Operation sequences on one configuration row -/

/-- A mutating privilege operation of the public `ConfigStore` surface. -/
inductive ConfigOp where
  | grant (id : Int) (privilege : Privilege)
  | deny (id : Int) (privilege : Privilege)
deriving DecidableEq

/-- One operation applied to a row: the resulting row (which, for a failed
`deny`, is the state as of the failing step) and the domain error, if
any. -/
def apply_op (row : GuildRow) : ConfigOp → GuildRow × Option GuildConfigError
  | .grant id privilege => (grant_privilege row id privilege, none)
  | .deny id privilege => deny_privilege row id privilege

/-- Threading a sequence of operations; failed operations keep the state
their failing step persisted, exactly as the caller of the library would. -/
def run_ops (row : GuildRow) : List ConfigOp → GuildRow
  | [] => row
  | op :: rest => run_ops (apply_op row op).1 rest

/-- Whether an operation is a `deny_privilege(_, Manager)` call. -/
def ConfigOp.denies_manager : ConfigOp → Bool
  | .deny _ .Manager => true
  | _ => false

/-- The row created by `GuildConfig::new` from `GuildConfigBuilder::new`
(possibly with messages and advertise overridden): all privilege sets
empty. -/
def fresh_row : GuildRow :=
  ⟨none, none, true, none, none, [], [], []⟩

/-! ## Ledger data model (`src/slap.rs`) -/

/-- `Enforcer` (`src/slap.rs:29`): ids in their `u64` (`Nat`) API form. -/
inductive Enforcer where
  | Community
  | Manager (user : Nat)
deriving DecidableEq

/-- `option_to_enforcer` (`src/slap.rs:45`): a null enforcer column is
`Community`; otherwise the `i64` goes through `from_i64`, whose panic on a
negative value is the outer `none`. -/
def option_to_enforcer (option : Option Int) : Option Enforcer :=
  match option with
  | some int => (from_i64 int).map Enforcer.Manager
  | none => some Enforcer.Community

/-- `enforcer_to_option` (`src/slap.rs:52`). -/
def enforcer_to_option : Enforcer → Option Nat
  | .Manager user => some user
  | .Community => none

/-- One row of the `slaps` table: `sentence` is its primary key, the
`enforcer` column a nullable `i64`. -/
structure SlapRow where
  sentence : Int
  guild : Int
  offender : Int
  enforcer : Option Int
  reason : Option String
deriving DecidableEq

/-- The `slaps` table, in insertion order. -/
abbrev SlapsTable := List SlapRow

/-- `SlapReport` (`src/slap.rs:63`). -/
structure SlapReport where
  sentence : Nat
  offender : Nat
  enforcer : Enforcer
  reason : Option String
deriving DecidableEq

/-- `insert_raw_slap` (`src/slap.rs:107`): `INSERT` of one row built with
`format!` (`src/slap.rs:115`).  The enforcer goes through
`enforcer_to_option` into the `BIGINT` column (a `Manager` id outside the
`i64` range is rejected by the store, modelled by `none`); the `reason`
is spliced through `stringify_option` with no escaping, so the stored
reason is whatever the store parses out of the quoted fragment
(`stringify_option_effect`), and a reason that malforms the statement
fails the query (`none`).  The primary-key constraint on `sentence` is
handled by hypothesis at the call sites. -/
def insert_raw_slap (table : SlapsTable) (sentence guild offender : Int)
    (enforcer : Enforcer) (reason : Option String) : Option SlapsTable :=
  (stringify_option_effect reason).bind fun stored_reason =>
  match enforcer_to_option enforcer with
  | none => some (table ++ [⟨sentence, guild, offender, none, stored_reason⟩])
  | some user => (to_i64 user).map fun u =>
      table ++ [⟨sentence, guild, offender, some u, stored_reason⟩]

/-- `GuildSlapRecord::new_slap` (`src/slap.rs:209`): convert the ids with
`to_i64` (panics modelled by `none`), insert the raw row and return the
constructed `SlapReport` built from the original inputs. -/
def new_slap (table : SlapsTable) (guild sentence offender : Nat)
    (enforcer : Enforcer) (reason : Option String) : Option (SlapsTable × SlapReport) :=
  (to_i64 sentence).bind fun s =>
  (to_i64 guild).bind fun g =>
  (to_i64 offender).bind fun o =>
  (insert_raw_slap table s g o enforcer reason).map fun t =>
    (t, ⟨sentence, offender, enforcer, reason⟩)

/-- `SlapReport::get` (`src/slap.rs:88`): `fetch_optional` of the first row
whose `sentence` matches, mapped back through `from_i64` and
`option_to_enforcer` (panics modelled by the outer `none`; `some none`
means "no such slap"). -/
def SlapReport.get (table : SlapsTable) (sentence : Nat) : Option (Option SlapReport) :=
  (to_i64 sentence).bind fun s =>
    match table.find? fun record => record.sentence == s with
    | none => some none
    | some record =>
      (from_i64 record.offender).bind fun offender =>
      (option_to_enforcer record.enforcer).map fun enforcer =>
      some ⟨sentence, offender, enforcer, record.reason⟩

/-! ## List helper lemmas (positions, swap-removal, counts) -/

lemma position_eq_none {a : Int} {l : List Int} : position a l = none ↔ a ∉ l := by
  induction l with
  | nil => simp [position]
  | cons x xs ih =>
    by_cases hx : x = a
    · subst hx; simp [position]
    · simp only [position, if_neg hx, Option.map_eq_none', ih, List.mem_cons]
      constructor
      · intro h hc
        rcases hc with hc | hc
        · exact hx hc.symm
        · exact h hc
      · intro h hc
        exact h (Or.inr hc)

lemma position_lt {a : Int} {l : List Int} {i : Nat} (h : position a l = some i) :
    i < l.length := by
  induction l generalizing i with
  | nil => simp [position] at h
  | cons x xs ih =>
    by_cases hx : x = a
    · simp only [position, if_pos hx, Option.some.injEq] at h
      simp [← h]
    · simp only [position, if_neg hx, Option.map_eq_some'] at h
      obtain ⟨j, hj, hji⟩ := h
      have := ih hj
      simp only [List.length_cons, ← hji]
      omega

lemma position_getD {a : Int} {l : List Int} {i : Nat} (h : position a l = some i) :
    l.getD i 0 = a := by
  induction l generalizing i with
  | nil => simp [position] at h
  | cons x xs ih =>
    by_cases hx : x = a
    · simp only [position, if_pos hx, Option.some.injEq] at h
      simp [← h, hx]
    · simp only [position, if_neg hx, Option.map_eq_some'] at h
      obtain ⟨j, hj, hji⟩ := h
      subst hji
      simpa using ih hj

lemma count_set_add (l : List Int) (i : Nat) (v x : Int) (h : i < l.length) :
    (l.set i v).count x + (if l.getD i 0 = x then 1 else 0)
      = l.count x + (if v = x then 1 else 0) := by
  induction l generalizing i with
  | nil => simp at h
  | cons y ys ih =>
    cases i with
    | zero =>
      show ((v :: ys).count x) + _ = _
      simp only [List.count_cons, List.getD_cons_zero, beq_iff_eq]
      omega
    | succ i =>
      have hi : i < ys.length := by simpa using h
      show ((y :: ys.set i v).count x) + _ = _
      simp only [List.count_cons, List.getD_cons_succ, beq_iff_eq]
      have := ih i hi
      omega

lemma count_append_singleton (l : List Int) (v x : Int) :
    (l ++ [v]).count x = l.count x + (if v = x then 1 else 0) := by
  simp [List.count_append, List.count_cons, beq_iff_eq]

lemma getLastD_concat (a : List Int) (v : Int) : (a ++ [v]).getLastD 0 = v := by
  rw [List.getLastD_eq_getLast?, List.getLast?_concat]
  rfl

lemma count_swapRemove_concat (a : List Int) (v x : Int) (i : Nat) (h : i ≤ a.length) :
    (swapRemove (a ++ [v]) i).count x + (if (a ++ [v]).getD i 0 = x then 1 else 0)
      = (a ++ [v]).count x := by
  unfold swapRemove
  rw [getLastD_concat]
  rcases Nat.lt_or_ge i a.length with hi | hi
  · rw [List.set_append_left i v hi, List.dropLast_concat,
      List.getD_append _ _ 0 i hi, count_append_singleton]
    have := count_set_add a i v x hi
    omega
  · have hieq : i = a.length := by omega
    subst hieq
    rw [List.set_append_right _ _ (Nat.le_refl _)]
    have hset0 : ([v].set (a.length - a.length) v) = [v] := by simp
    rw [hset0, List.dropLast_concat, count_append_singleton]
    have hgetD : (a ++ [v]).getD a.length 0 = v := by
      rw [List.getD_eq_getElem?_getD, List.getElem?_concat_length]
      rfl
    rw [hgetD]

lemma count_swapRemove (l : List Int) (i : Nat) (x : Int) (h : i < l.length) :
    (swapRemove l i).count x + (if l.getD i 0 = x then 1 else 0) = l.count x := by
  rcases List.eq_nil_or_concat l with rfl | ⟨a, v, rfl⟩
  · simp at h
  · simp only [List.concat_eq_append] at h ⊢
    refine count_swapRemove_concat a v x i ?_
    have : i < a.length + 1 := by simpa using h
    omega

lemma mem_iff_count_pos {a : Int} {l : List Int} : a ∈ l ↔ 0 < l.count a :=
  List.count_pos_iff.symm

/-! ## Quote-free strings survive the unescaped interpolation -/

lemma scan_literal_no_quote {cs : List Char} (h : squote ∉ cs) :
    scan_literal (cs ++ [squote]) = some (cs, []) := by
  induction cs with
  | nil => rfl
  | cons c rest ih =>
    have hc : ¬ c = squote := fun e => h (by rw [← e]; exact List.mem_cons_self c rest)
    have hrest : squote ∉ rest := fun hr => h (List.mem_cons_of_mem c hr)
    cases rest with
    | nil => simp [scan_literal, hc]
    | cons c2 rest2 =>
      have ih2 := ih hrest
      rw [List.cons_append] at ih2
      simp only [List.cons_append, scan_literal, if_neg hc, List.append_eq]
      rw [ih2]
      rfl

lemma stringify_option_effect_some_no_quote {s : String} (h : squote ∉ s.data) :
    stringify_option_effect (some s) = some (some s) := by
  simp [stringify_option_effect, stringify_option, parse_fragment, scan_literal_no_quote h]

/-- A reason that is absent or contains no quote is stored verbatim. -/
lemma stringify_option_effect_of_safe {reason : Option String}
    (h : ∀ r, reason = some r → squote ∉ r.data) :
    stringify_option_effect reason = some reason := by
  cases reason with
  | none => decide
  | some r => exact stringify_option_effect_some_no_quote (h r rfl)

/-! ## The admin-implies-manager invariant -/

/-- Multiset strengthening of the spec invariant: every role id occurs in
`priv_manager` at least as often as in `priv_admin`.  (The raw arrays may
contain duplicates, since `grant_single_privilege` pushes without
de-duplicating.) -/
def count_invariant (row : GuildRow) : Prop :=
  ∀ r : Int, row.priv_admin.count r ≤ row.priv_manager.count r

lemma grant_single_manager_eq (row : GuildRow) (id : Int) :
    grant_single_privilege row id .Manager = { row with priv_manager := row.priv_manager ++ [id] } :=
  rfl

lemma grant_single_admin_eq (row : GuildRow) (id : Int) :
    grant_single_privilege row id .Admin = { row with priv_admin := row.priv_admin ++ [id] } :=
  rfl

lemma grant_single_event_eq (row : GuildRow) (id : Int) :
    grant_single_privilege row id .Event = { row with priv_event := row.priv_event ++ [id] } :=
  rfl

lemma count_invariant_grant {row : GuildRow} (hinv : count_invariant row)
    (id : Int) (privilege : Privilege) : count_invariant (grant_privilege row id privilege) := by
  intro r
  cases privilege with
  | Admin =>
    simp only [grant_privilege, grant_single_manager_eq, grant_single_admin_eq,
      count_append_singleton]
    have := hinv r
    omega
  | Manager =>
    simp only [grant_privilege, grant_single_manager_eq, count_append_singleton]
    have := hinv r
    omega
  | Event =>
    simp only [grant_privilege, grant_single_event_eq]
    exact hinv r

lemma deny_single_of_position_none {row : GuildRow} {id : Int} {privilege : Privilege}
    (h : position id (get_raw_roles_with row privilege) = none) :
    deny_single_privilege row id privilege = (row, some (.RoleNoPrivilege id privilege)) := by
  simp [deny_single_privilege, h]

lemma deny_single_of_position_some {row : GuildRow} {id : Int} {privilege : Privilege} {i : Nat}
    (h : position id (get_raw_roles_with row privilege) = some i) :
    deny_single_privilege row id privilege
      = (update_privilege row (swapRemove (get_raw_roles_with row privilege) i) privilege, none) := by
  simp [deny_single_privilege, h]

/-- Effect of a successful one-set removal on the occurrence count of the
removed role (one occurrence disappears) and of every other role
(unchanged). -/
lemma count_swapRemove_position {l : List Int} {id : Int} {i : Nat}
    (h : position id l = some i) (x : Int) :
    (swapRemove l i).count x + (if id = x then 1 else 0) = l.count x := by
  have hlt := position_lt h
  have hgetD := position_getD h
  have := count_swapRemove l i x hlt
  rw [hgetD] at this
  exact this

lemma count_invariant_deny {row : GuildRow} (hinv : count_invariant row)
    (id : Int) (privilege : Privilege) (hp : privilege ≠ .Manager) :
    count_invariant (deny_privilege row id privilege).1 := by
  cases privilege with
  | Manager => exact absurd rfl hp
  | Event =>
    cases hpos : position id (get_raw_roles_with row .Event) with
    | none => simpa [deny_privilege, deny_single_of_position_none hpos] using hinv
    | some i =>
      intro r
      simpa [deny_privilege, deny_single_of_position_some hpos, update_privilege] using hinv r
  | Admin =>
    cases hpos : position id (get_raw_roles_with row .Manager) with
    | none => simpa [deny_privilege, deny_single_of_position_none hpos] using hinv
    | some i =>
      have hrow1 : (deny_single_privilege row id .Manager)
          = ({ row with priv_manager := swapRemove row.priv_manager i }, none) := by
        rw [deny_single_of_position_some hpos]
        rfl
      have hcnt1 : ∀ x, (swapRemove row.priv_manager i).count x + (if id = x then 1 else 0)
          = row.priv_manager.count x := fun x => count_swapRemove_position hpos x
      cases hpos2 : position id row.priv_admin with
      | none =>
        have hnotmem : id ∉ row.priv_admin := position_eq_none.mp hpos2
        have hzero : row.priv_admin.count id = 0 := List.count_eq_zero.mpr hnotmem
        intro r
        have hfin : deny_privilege row id .Admin
            = ({ row with priv_manager := swapRemove row.priv_manager i },
               some (.RoleNoPrivilege id .Admin)) := by
          simp only [deny_privilege, hrow1]
          exact deny_single_of_position_none (by simpa [get_raw_roles_with] using hpos2)
        rw [hfin]
        by_cases hr : id = r
        · subst hr
          simp only
          omega
        · have h1 := hcnt1 r
          have h2 := hinv r
          simp only [if_neg hr] at h1
          simp only
          omega
      | some j =>
        intro r
        have hfin : deny_privilege row id .Admin
            = ({ row with priv_manager := swapRemove row.priv_manager i,
                          priv_admin := swapRemove row.priv_admin j }, none) := by
          simp only [deny_privilege, hrow1]
          rw [deny_single_of_position_some (by simpa [get_raw_roles_with] using hpos2)]
          rfl
        have hcnt2 : (swapRemove row.priv_admin j).count r + (if id = r then 1 else 0)
            = row.priv_admin.count r := count_swapRemove_position (by simpa using hpos2) r
        have h1 := hcnt1 r
        have h2 := hinv r
        rw [hfin]
        simp only
        omega

lemma count_invariant_apply_op {row : GuildRow} (hinv : count_invariant row) {op : ConfigOp}
    (hop : op.denies_manager = false) : count_invariant (apply_op row op).1 := by
  cases op with
  | grant id privilege => exact count_invariant_grant hinv id privilege
  | deny id privilege =>
    have hp : privilege ≠ .Manager := by
      intro h
      subst h
      simp [ConfigOp.denies_manager] at hop
    exact count_invariant_deny hinv id privilege hp

lemma count_invariant_run_ops {row : GuildRow} (hinv : count_invariant row) {ops : List ConfigOp}
    (hops : ∀ op ∈ ops, op.denies_manager = false) : count_invariant (run_ops row ops) := by
  induction ops generalizing row with
  | nil => exact hinv
  | cons op rest ih =>
    exact ih (count_invariant_apply_op hinv (hops op (List.mem_cons_self op rest)))
      fun o ho => hops o (List.mem_cons_of_mem op ho)

lemma count_invariant_subset {row : GuildRow} (hinv : count_invariant row) :
    ∀ r : Int, r ∈ row.priv_admin → r ∈ row.priv_manager := by
  intro r hr
  have h1 : 0 < row.priv_admin.count r := mem_iff_count_pos.mp hr
  have h2 := hinv r
  exact mem_iff_count_pos.mpr (by omega)

/-! ## Claim C1 -/

/-- Claim C1, as stated, is false: `deny_privilege(r, Manager)` on a role
`r` that also holds `Admin` completes successfully and leaves `r` in
`priv_admin` but not in `priv_manager`.  Concretely, from a fresh
configuration, after `grant_privilege(1, Admin)` the successful
`deny_privilege(1, Manager)` yields a state violating the invariant. -/
theorem C1_counterexample :
    (apply_op (run_ops fresh_row [ConfigOp.grant 1 .Admin]) (ConfigOp.deny 1 .Manager)).2 = none
    ∧ (1 : Int) ∈ (apply_op (run_ops fresh_row [ConfigOp.grant 1 .Admin])
        (ConfigOp.deny 1 .Manager)).1.priv_admin
    ∧ (1 : Int) ∉ (apply_op (run_ops fresh_row [ConfigOp.grant 1 .Admin])
        (ConfigOp.deny 1 .Manager)).1.priv_manager := by
  decide

/-- Claim C1 (amended): starting from a freshly created configuration (all
privilege sets empty), after any sequence of `grant_privilege` /
`deny_privilege` operations **containing no `deny_privilege(_, Manager)`
call**, every role in `priv_admin` is also in `priv_manager` — in
particular the invariant holds after every such mutating operation,
successful or not.  A `deny_privilege(r, Manager)` on a role `r` in
`priv_admin` breaks the invariant (see the counterexample). -/
theorem C1_admin_subset_manager (row₀ : GuildRow) (hA : row₀.priv_admin = [])
    (hM : row₀.priv_manager = []) (ops : List ConfigOp)
    (hops : (ops.all fun op => !op.denies_manager) = true) :
    ∀ r : Int, r ∈ (run_ops row₀ ops).priv_admin → r ∈ (run_ops row₀ ops).priv_manager := by
  have hinv : count_invariant row₀ := by
    intro r
    simp [hA]
  have hall : ∀ op ∈ ops, op.denies_manager = false := by
    intro op hop
    have := List.all_eq_true.mp hops op hop
    simpa using this
  exact count_invariant_subset (count_invariant_run_ops hinv hall)

/-- Witness for the amended C1 at a concrete operation sequence and role. -/
theorem C1_admin_subset_manager_witness :
    (7 : Int) ∈ (run_ops fresh_row [ConfigOp.grant 7 .Admin, ConfigOp.deny 7 .Event]).priv_manager :=
  C1_admin_subset_manager fresh_row rfl rfl
    [ConfigOp.grant 7 .Admin, ConfigOp.deny 7 .Event] (by decide) 7 (by decide)

/-! ## Claim C2 -/

/-- Claim C2, as stated, is false for sequences in which
`grant_privilege(r, Admin)` was called more than once before the deny:
the grants push duplicate entries into `priv_manager`, and
`deny_privilege(r, Admin)` removes only one occurrence from each set, so
the deny succeeds while `has_privilege(r, Manager)` stays `true`. -/
theorem C2_counterexample :
    (deny_privilege (run_ops fresh_row [ConfigOp.grant 1 .Admin, ConfigOp.grant 1 .Admin])
        1 .Admin).2 = none
    ∧ has_privilege
        (deny_privilege (run_ops fresh_row [ConfigOp.grant 1 .Admin, ConfigOp.grant 1 .Admin])
          1 .Admin).1 1 .Manager = true := by
  decide

/-- Claim C2 (amended): immediately after `grant_privilege(r, Admin)`,
`has_privilege(r, Manager)` is true (in every state); and immediately
after a successful `deny_privilege(r, Admin)`, `has_privilege(r, Manager)`
is false **provided `r` occurred at most once in `priv_manager`
beforehand** — which holds when `grant_privilege(r, Admin)` was not called
more than once before the deny, but fails for duplicated grants (see the
counterexample). -/
theorem C2_grant_deny_admin_cascade :
    (∀ (row : GuildRow) (r : Int),
        has_privilege (grant_privilege row r .Admin) r .Manager = true)
    ∧ ∀ (row : GuildRow) (r : Int), row.priv_manager.count r ≤ 1 →
        (deny_privilege row r .Admin).2 = none →
        has_privilege (deny_privilege row r .Admin).1 r .Manager = false := by
  constructor
  · intro row r
    have : r ∈ row.priv_manager ++ [r] := List.mem_append_right _ (List.mem_singleton.mpr rfl)
    simpa [has_privilege, grant_privilege, grant_single_manager_eq, grant_single_admin_eq,
      get_raw_roles_with, List.contains, List.elem_iff] using this
  · intro row r hcount hsucc
    cases hpos : position r (get_raw_roles_with row .Manager) with
    | none =>
      rw [show deny_privilege row r .Admin
            = (row, some (.RoleNoPrivilege r .Manager)) from by
          simp [deny_privilege, deny_single_of_position_none hpos]] at hsucc
      exact absurd hsucc (by simp)
    | some i =>
      have hrow1 : deny_single_privilege row r .Manager
          = ({ row with priv_manager := swapRemove row.priv_manager i }, none) := by
        rw [deny_single_of_position_some hpos]
        rfl
      have hswap : (swapRemove row.priv_manager i).count r + 1 = row.priv_manager.count r := by
        have := count_swapRemove_position hpos r
        simpa using this
      have hzero : (swapRemove row.priv_manager i).count r = 0 := by omega
      have hnot : r ∉ swapRemove row.priv_manager i := List.count_eq_zero.mp hzero
      cases hpos2 : position r row.priv_admin with
      | none =>
        rw [show deny_privilege row r .Admin
              = ({ row with priv_manager := swapRemove row.priv_manager i },
                 some (.RoleNoPrivilege r .Admin)) from by
            simp only [deny_privilege, hrow1]
            exact deny_single_of_position_none (by simpa [get_raw_roles_with] using hpos2)] at hsucc
        exact absurd hsucc (by simp)
      | some j =>
        rw [show deny_privilege row r .Admin
              = ({ row with priv_manager := swapRemove row.priv_manager i,
                            priv_admin := swapRemove row.priv_admin j }, none) from by
            simp only [deny_privilege, hrow1]
            rw [deny_single_of_position_some (by simpa [get_raw_roles_with] using hpos2)]
            rfl]
        have : ¬ ((swapRemove row.priv_manager i).contains r = true) := fun hc =>
          hnot (List.elem_iff.mp hc)
        simpa [has_privilege, get_raw_roles_with] using this

/-- Witness for the amended C2 at a concrete state. -/
theorem C2_grant_deny_admin_cascade_witness :
    has_privilege (grant_privilege fresh_row 3 .Admin) 3 .Manager = true
    ∧ (run_ops fresh_row [ConfigOp.grant 3 .Admin]).priv_manager.count 3 ≤ 1
    ∧ (deny_privilege (run_ops fresh_row [ConfigOp.grant 3 .Admin]) 3 .Admin).2 = none
    ∧ has_privilege (deny_privilege (run_ops fresh_row [ConfigOp.grant 3 .Admin])
        3 .Admin).1 3 .Manager = false :=
  ⟨C2_grant_deny_admin_cascade.1 fresh_row 3, by decide, by decide,
   C2_grant_deny_admin_cascade.2 (run_ops fresh_row [ConfigOp.grant 3 .Admin]) 3
     (by decide) (by decide)⟩

/-! ## Claim C3 -/

/-- Claim C3, as stated, is false: when `r ∈ priv_admin` but
`r ∉ priv_manager`, the `?` on the cascade call propagates the cascade's
`RoleNoPrivilege{r, Manager}` error and `r` is **not** removed from
`priv_admin`.  The state below is reachable
(`grant_privilege(1, Admin)` then `deny_privilege(1, Manager)`). -/
theorem C3_counterexample :
    (deny_privilege (run_ops fresh_row [ConfigOp.grant 1 .Admin, ConfigOp.deny 1 .Manager])
        1 .Admin).2 = some (.RoleNoPrivilege 1 .Manager)
    ∧ (1 : Int) ∈ (deny_privilege
        (run_ops fresh_row [ConfigOp.grant 1 .Admin, ConfigOp.deny 1 .Manager])
        1 .Admin).1.priv_admin := by
  decide

/-- Claim C3 (amended): when `deny_privilege(r, Admin)` is called on a
state in which `r` is in `priv_admin` but not in `priv_manager`, the
Admin→Manager cascade's `RoleNoPrivilege{r, Manager}` error **is
propagated to the caller**, and the call performs no mutation at all: the
row (in particular `priv_admin`) is unchanged. -/
theorem C3_deny_admin_cascade_error (row : GuildRow) (r : Int)
    (ha : r ∈ row.priv_admin) (hm : r ∉ row.priv_manager) :
    deny_privilege row r .Admin = (row, some (.RoleNoPrivilege r .Manager)) := by
  have hpos : position r (get_raw_roles_with row .Manager) = none := position_eq_none.mpr hm
  simp [deny_privilege, deny_single_of_position_none hpos]

/-- Witness for the amended C3 at a concrete state. -/
theorem C3_deny_admin_cascade_error_witness :
    deny_privilege ⟨none, none, true, none, none, [1], [], []⟩ 1 .Admin
      = (⟨none, none, true, none, none, [1], [], []⟩, some (.RoleNoPrivilege 1 .Manager)) :=
  C3_deny_admin_cascade_error ⟨none, none, true, none, none, [1], [], []⟩ 1
    (by decide) (by decide)

/-! ## Claim C4 -/

/-- Claim C4, as stated, is false: the guard in `set_message` compares
`str::len()`, the UTF-8 **byte** length, against 2000 — not the character
count.  A 667-character message of three-byte characters (2001 bytes) is
rejected with `MessageTooLong` although its length is at most 2000
characters. -/
theorem C4_counterexample :
    (String.mk (List.replicate 667 '€')).length ≤ 2000
    ∧ set_message fresh_row .Welcome (some (String.mk (List.replicate 667 '€')))
        = Except.error (.MessageTooLong "welcome_message") := by
  constructor
  · decide
  · rfl

/-- Claim C4 (amended): with length measured in UTF-8 **bytes** (Rust's
`str::len()`) and for strings containing no single-quote character: for
every such string of at most 2000 bytes the set succeeds, storing exactly
the given string, and a subsequent get returns exactly it; for every
string of more than 2000 bytes the call fails with `MessageTooLong`
naming the field, before any write is issued, leaving the stored value
unchanged (error returns carry no updated row).  The same holds for the
welcome and the goodbye message.  Quote-bearing strings are excluded
because `set_message` splices them into the statement unescaped
(`stringify_option`, `src/guild.rs:172`, `src/lib.rs:114`): the store
collapses a doubled quote to one character, silently altering the stored
value, and any other quote placement fails the query. -/
theorem C4_message_roundtrip_bytes (row : GuildRow) (msg_ty : MessageType) (s : String) :
    (s.utf8ByteSize ≤ 2000 → squote ∉ s.data →
      set_message row msg_ty (some s) = Except.ok (put_message row msg_ty (some s))
      ∧ get_message (put_message row msg_ty (some s)) msg_ty = some s)
    ∧ (2000 < s.utf8ByteSize →
      set_message row msg_ty (some s) = Except.error (.MessageTooLong msg_ty.field)) := by
  constructor
  · intro h hq
    constructor
    · simp [set_message, Nat.not_lt.mpr h, stringify_option_effect_some_no_quote hq]
    · cases msg_ty <;> simp [put_message, get_message]
  · intro h
    simp [set_message, h]

/-- Witness for the amended C4 at a concrete string. -/
theorem C4_message_roundtrip_bytes_witness :
    "hello".utf8ByteSize ≤ 2000
    ∧ squote ∉ "hello".data
    ∧ set_message fresh_row .Welcome (some "hello")
        = Except.ok (put_message fresh_row .Welcome (some "hello"))
    ∧ get_message (put_message fresh_row .Welcome (some "hello")) .Welcome = some "hello" :=
  ⟨by decide, by decide,
    ((C4_message_roundtrip_bytes fresh_row .Welcome "hello").1 (by decide) (by decide)).1,
    ((C4_message_roundtrip_bytes fresh_row .Welcome "hello").1 (by decide) (by decide)).2⟩

/-! ## Claim C5 -/

lemma to_i64_of_lt {n : Nat} (h : n < 2 ^ 63) : to_i64 n = some (Int.ofNat n) := by
  unfold to_i64
  rw [if_pos h]

lemma from_i64_ofNat (n : Nat) : from_i64 (n : Int) = some n := by
  unfold from_i64
  rw [if_pos (by omega)]
  simp

lemma find?_append_of_all_neg {p : SlapRow → Bool} {l₁ : List SlapRow}
    (h : ∀ x ∈ l₁, p x = false) (l₂ : List SlapRow) :
    (l₁ ++ l₂).find? p = l₂.find? p := by
  induction l₁ with
  | nil => rfl
  | cons x xs ih =>
    have hx := h x (List.mem_cons_self x xs)
    rw [List.cons_append, List.find?_cons_of_neg _ (by simp [hx])]
    exact ih fun y hy => h y (List.mem_cons_of_mem x hy)

/-- Point lookup after appending a fresh-keyed row finds exactly that
row. -/
lemma get_append_fresh (table : SlapsTable) (sentence : Nat) (hs : sentence < 2 ^ 63)
    (hfresh : ∀ row ∈ table, row.sentence ≠ Int.ofNat sentence)
    (guildI offenderI : Int) (enfCol : Option Int) (reason : Option String) :
    SlapReport.get (table ++ [⟨Int.ofNat sentence, guildI, offenderI, enfCol, reason⟩]) sentence
      = (from_i64 offenderI).bind fun offender =>
        (option_to_enforcer enfCol).map fun enforcer =>
        some ⟨sentence, offender, enforcer, reason⟩ := by
  rw [SlapReport.get, to_i64_of_lt hs, Option.some_bind]
  have hfind : (table ++ [(⟨Int.ofNat sentence, guildI, offenderI, enfCol, reason⟩ : SlapRow)]).find?
      (fun record => record.sentence == Int.ofNat sentence)
      = some (⟨Int.ofNat sentence, guildI, offenderI, enfCol, reason⟩ : SlapRow) := by
    rw [find?_append_of_all_neg (fun x hx => by simpa using hfresh x hx)]
    simp [List.find?_cons_of_pos]
  rw [hfind]

/-- Claim C5, as stated, is false for reasons containing quote
characters: `insert_raw_slap` splices the reason into the `INSERT`
through `stringify_option` with no escaping (`src/slap.rs:115`,
`src/lib.rs:114`), so a reason holding a doubled quote is inserted
successfully but stored with the pair collapsed to one quote — the
lookup then differs from the report `new_slap` returned. -/
theorem C5_counterexample :
    new_slap [] 1 2 3 Enforcer.Community (some (String.mk [Char.ofNat 97, squote, squote, Char.ofNat 98]))
      = some ([⟨2, 1, 3, none, some (String.mk [Char.ofNat 97, squote, Char.ofNat 98])⟩],
        ⟨2, 3, Enforcer.Community, some (String.mk [Char.ofNat 97, squote, squote, Char.ofNat 98])⟩)
    ∧ SlapReport.get [⟨2, 1, 3, none, some (String.mk [Char.ofNat 97, squote, Char.ofNat 98])⟩] 2
      ≠ some (some ⟨2, 3, Enforcer.Community,
          some (String.mk [Char.ofNat 97, squote, squote, Char.ofNat 98])⟩) := by
  constructor
  · decide
  · decide

/-- Claim C5 (amended): a `new_slap` whose identifiers are in the `i64`
range, whose `sentence` is not yet present in the table, and whose reason
is absent or contains no single-quote character succeeds, and a
`SlapReport::get` of the same sentence returns exactly the report that
`new_slap` returned — for every enforcer (a `Community` enforcer is
stored as a null column and read back as `Community`; `Manager u`
round-trips).  Quote-bearing reasons are excluded: the unescaped
interpolation stores them altered (see the counterexample) or fails the
statement. -/
theorem C5_record_lookup_roundtrip (table : SlapsTable) (guild sentence offender : Nat)
    (enforcer : Enforcer) (reason : Option String)
    (hs : sentence < 2 ^ 63) (hg : guild < 2 ^ 63) (ho : offender < 2 ^ 63)
    (he : ∀ u, enforcer = .Manager u → u < 2 ^ 63)
    (hreason : ∀ r, reason = some r → squote ∉ r.data)
    (hfresh : ∀ row ∈ table, row.sentence ≠ Int.ofNat sentence) :
    ∃ t : SlapsTable,
      new_slap table guild sentence offender enforcer reason
        = some (t, ⟨sentence, offender, enforcer, reason⟩)
      ∧ SlapReport.get t sentence = some (some ⟨sentence, offender, enforcer, reason⟩) := by
  have heffr : stringify_option_effect reason = some reason :=
    stringify_option_effect_of_safe hreason
  cases enforcer with
  | Community =>
    refine ⟨table ++ [⟨Int.ofNat sentence, Int.ofNat guild, Int.ofNat offender, none, reason⟩],
      ?_, ?_⟩
    · simp [new_slap, to_i64_of_lt hs, to_i64_of_lt hg, to_i64_of_lt ho,
        insert_raw_slap, heffr, enforcer_to_option]
    · rw [get_append_fresh table sentence hs hfresh]
      simp [from_i64_ofNat, option_to_enforcer]
  | Manager u =>
    have hu : u < 2 ^ 63 := he u rfl
    refine ⟨table ++ [⟨Int.ofNat sentence, Int.ofNat guild, Int.ofNat offender,
      some (Int.ofNat u), reason⟩], ?_, ?_⟩
    · simp [new_slap, to_i64_of_lt hs, to_i64_of_lt hg, to_i64_of_lt ho,
        insert_raw_slap, heffr, enforcer_to_option, to_i64_of_lt hu]
    · rw [get_append_fresh table sentence hs hfresh]
      simp [from_i64_ofNat, option_to_enforcer]

/-- Witness for the amended C5 at a concrete slap record. -/
theorem C5_record_lookup_roundtrip_witness :
    ∃ t : SlapsTable,
      new_slap [] 5844 6841381385 87038540 .Community (some "ok")
        = some (t, ⟨6841381385, 87038540, .Community, some "ok"⟩)
      ∧ SlapReport.get t 6841381385
        = some (some ⟨6841381385, 87038540, .Community, some "ok"⟩) :=
  C5_record_lookup_roundtrip [] 5844 6841381385 87038540 .Community (some "ok")
    (by decide) (by decide) (by decide) (fun u h => nomatch h)
    (fun r h => by cases h; decide) (fun row h => nomatch h)

/-! ## Claim C6 -/

/-- Claim C6 (confirmed): for every community id in the `i64` range and
not yet present, a first `create` succeeds and appends the row; `exists`
is false before and true after; a second `create` with the same id fails
with `AlreadyExists(id)` and returns no new table, so the existing row is
not overwritten. -/
theorem C6_create_twice_already_exists (table : GuildsTable) (id : Nat)
    (w g : Option String) (adv : Bool) (hid : id < 2 ^ 63)
    (hnot : GuildConfig.exists_ table id = some false) :
    ∃ t₂ : GuildsTable,
      GuildConfig.new table { GuildConfigBuilder.new id with
        welcome_message := w, goodbye_message := g, advertise := adv } = some (Except.ok t₂)
      ∧ GuildConfig.exists_ t₂ id = some true
      ∧ GuildConfig.new t₂ { GuildConfigBuilder.new id with
          welcome_message := w, goodbye_message := g, advertise := adv }
        = some (Except.error (.AlreadyExists id)) := by
  have hti : to_i64 id = some (Int.ofNat id) := to_i64_of_lt hid
  have hany : (table.any fun record => record.1 = Int.ofNat id) = false := by
    rw [GuildConfig.exists_, hti] at hnot
    simpa using hnot
  refine ⟨table ++ [(Int.ofNat id, ⟨w, g, adv, none, none, [], [], []⟩)], ?_, ?_, ?_⟩
  · rw [GuildConfig.new]
    show (to_i64 id).bind _ = _
    rw [hti, Option.some_bind]
    simp only [GuildConfigBuilder.new, hany, Bool.false_eq_true, if_false]
    rfl
  · rw [GuildConfig.exists_, hti, Option.map_some']
    simp [List.any_append]
  · rw [GuildConfig.new]
    show (to_i64 id).bind _ = _
    rw [hti, Option.some_bind]
    have : ((table ++ [(Int.ofNat id, (⟨w, g, adv, none, none, [], [], []⟩ : GuildRow))]).any
        fun record => record.1 = Int.ofNat id) = true := by
      simp [List.any_append]
    simp only [GuildConfigBuilder.new, this, if_true]

/-- Witness for C6 at a concrete table and id. -/
theorem C6_create_twice_already_exists_witness :
    ∃ t₂ : GuildsTable,
      GuildConfig.new [] { GuildConfigBuilder.new 5844 with
        welcome_message := some "hello", goodbye_message := none, advertise := true }
        = some (Except.ok t₂)
      ∧ GuildConfig.exists_ t₂ 5844 = some true
      ∧ GuildConfig.new t₂ { GuildConfigBuilder.new 5844 with
          welcome_message := some "hello", goodbye_message := none, advertise := true }
        = some (Except.error (.AlreadyExists 5844)) :=
  C6_create_twice_already_exists [] 5844 (some "hello") none true (by decide) (by decide)

/-! ## Claim C7 -/

/-- Claim C7 (confirmed): `get_privileges_for` returns a list beginning
with `[Admin, Manager]` exactly when the role is in `priv_admin` (even if
it is absent from `priv_manager`), beginning with `[Manager]` alone when
it is in `priv_manager` but not `priv_admin`, and empty on that axis
otherwise, with `Event` appended last exactly when the role is in
`priv_event`, independent of the other two. -/
theorem C7_privileges_for_characterization (row : GuildRow) (r : Int) :
    get_privileges_for row r
      = (if r ∈ row.priv_admin then [Privilege.Admin, Privilege.Manager]
         else if r ∈ row.priv_manager then [Privilege.Manager]
         else [])
        ++ (if r ∈ row.priv_event then [Privilege.Event] else []) := by
  by_cases ha : r ∈ row.priv_admin <;> by_cases hm : r ∈ row.priv_manager <;>
    by_cases hev : r ∈ row.priv_event <;>
    simp [get_privileges_for, has_privilege, get_raw_roles_with, List.contains,
      List.elem_iff, ha, hm, hev]

/-! ## Claim C8 -/

/-- Claim C8 (confirmed): the boundary mapping between `Enforcer` and the
nullable stored `i64` column is symmetric on every value the store can
hold: `Community` maps to the absent column value and back, and
`Manager u` maps to `Some u` and back, each direction composed with the
other being the identity (for ids within the `i64` range, which is all
the column can hold; `from_i64` would panic on a negative column value,
but the insertion path only ever stores non-negative ids). -/
theorem C8_enforcer_boundary_symmetric :
    (option_to_enforcer none = some Enforcer.Community
      ∧ enforcer_to_option Enforcer.Community = none)
    ∧ (∀ u : Nat, u < 2 ^ 63 →
        option_to_enforcer ((enforcer_to_option (Enforcer.Manager u)).bind to_i64)
          = some (Enforcer.Manager u))
    ∧ (∀ i : Int, 0 ≤ i → i < 2 ^ 63 →
        ∃ e : Enforcer, option_to_enforcer (some i) = some e
          ∧ (enforcer_to_option e).bind to_i64 = some i) := by
  refine ⟨⟨rfl, rfl⟩, ?_, ?_⟩
  · intro u hu
    simp [enforcer_to_option, to_i64_of_lt hu, option_to_enforcer, from_i64_ofNat]
  · intro i h0 hlt
    refine ⟨Enforcer.Manager i.toNat, ?_, ?_⟩
    · simp [option_to_enforcer, from_i64, h0]
    · have hlt2 : i.toNat < 2 ^ 63 := by omega
      simp [enforcer_to_option, to_i64_of_lt hlt2, Int.toNat_of_nonneg h0]

/-- Witness for C8 at concrete values. -/
theorem C8_enforcer_boundary_symmetric_witness :
    ((1 : Nat) < 2 ^ 63
      ∧ option_to_enforcer ((enforcer_to_option (Enforcer.Manager 1)).bind to_i64)
          = some (Enforcer.Manager 1))
    ∧ (0 : Int) ≤ 1 ∧ (1 : Int) < 2 ^ 63
    ∧ ∃ e : Enforcer, option_to_enforcer (some 1) = some e
        ∧ (enforcer_to_option e).bind to_i64 = some 1 :=
  ⟨⟨by decide, C8_enforcer_boundary_symmetric.2.1 1 (by decide)⟩, by decide, by decide,
    C8_enforcer_boundary_symmetric.2.2 1 (by decide) (by decide)⟩

/-! ## Claim C9 -/

/-- Claim C9 (confirmed): for every 64-bit unsigned identifier the core
accepts — `to_i64` panics on ids of `2^63` and above, so an accepted id
is below `2^63` — converting to the signed stored representation and back
is the identity. -/
theorem C9_id_conversion_roundtrip (id : Nat) (h : id < 2 ^ 63) :
    (to_i64 id).bind from_i64 = some id := by
  rw [to_i64_of_lt h, Option.some_bind]
  exact from_i64_ofNat id

/-- Witness for C9 at a concrete id. -/
theorem C9_id_conversion_roundtrip_witness :
    (5844 : Nat) < 2 ^ 63 ∧ (to_i64 5844).bind from_i64 = some 5844 :=
  ⟨by decide, C9_id_conversion_roundtrip 5844 (by decide)⟩

/-! ## Claim C10 -/

/-- Claim C10 (confirmed): calling `deny_privilege(r, Admin)` on a state
where `r` is in `priv_manager` but not in `priv_admin` first removes one
occurrence of `r` from `priv_manager` and persists that removal, then
fails with `RoleNoPrivilege{r, Admin}`: the error return leaves
`priv_manager` mutated while `priv_admin` is unchanged (and if `r`
occurred exactly once, it is gone from `priv_manager`). -/
theorem C10_deny_admin_partial_mutation (row : GuildRow) (r : Int)
    (hm : r ∈ row.priv_manager) (ha : r ∉ row.priv_admin) :
    (deny_privilege row r .Admin).2 = some (.RoleNoPrivilege r .Admin)
    ∧ (deny_privilege row r .Admin).1.priv_admin = row.priv_admin
    ∧ (deny_privilege row r .Admin).1.priv_manager.count r + 1 = row.priv_manager.count r
    ∧ (row.priv_manager.count r = 1 → r ∉ (deny_privilege row r .Admin).1.priv_manager) := by
  cases hpos : position r (get_raw_roles_with row .Manager) with
  | none => exact absurd hm (position_eq_none.mp hpos)
  | some i =>
    have hrow1 : deny_single_privilege row r .Manager
        = ({ row with priv_manager := swapRemove row.priv_manager i }, none) := by
      rw [deny_single_of_position_some hpos]
      rfl
    have hpos2 : position r (get_raw_roles_with row .Admin) = none := position_eq_none.mpr ha
    have hfin : deny_privilege row r .Admin
        = ({ row with priv_manager := swapRemove row.priv_manager i },
           some (.RoleNoPrivilege r .Admin)) := by
      simp only [deny_privilege, hrow1]
      exact deny_single_of_position_none hpos2
    have hswap : (swapRemove row.priv_manager i).count r + 1 = row.priv_manager.count r := by
      have := count_swapRemove_position hpos r
      simpa [get_raw_roles_with] using this
    refine ⟨by rw [hfin], by rw [hfin], ?_, ?_⟩
    · rw [hfin]
      exact hswap
    · intro h1
      rw [hfin]
      have hzero : (swapRemove row.priv_manager i).count r = 0 := by omega
      exact List.count_eq_zero.mp hzero

/-- Witness for C10 at a concrete state. -/
theorem C10_deny_admin_partial_mutation_witness :
    (deny_privilege (⟨none, none, true, none, none, [], [5], []⟩ : GuildRow) 5 .Admin).2
      = some (.RoleNoPrivilege 5 .Admin)
    ∧ (deny_privilege (⟨none, none, true, none, none, [], [5], []⟩ : GuildRow) 5 .Admin).1.priv_admin
      = (⟨none, none, true, none, none, [], [5], []⟩ : GuildRow).priv_admin
    ∧ (deny_privilege (⟨none, none, true, none, none, [], [5], []⟩ : GuildRow)
          5 .Admin).1.priv_manager.count 5 + 1
      = (⟨none, none, true, none, none, [], [5], []⟩ : GuildRow).priv_manager.count 5
    ∧ ((⟨none, none, true, none, none, [], [5], []⟩ : GuildRow).priv_manager.count 5 = 1 →
        5 ∉ (deny_privilege (⟨none, none, true, none, none, [], [5], []⟩ : GuildRow)
          5 .Admin).1.priv_manager) :=
  C10_deny_admin_partial_mutation ⟨none, none, true, none, none, [], [5], []⟩ 5
    (by decide) (by decide)

end DbAdapter
